import Mathlib

/-!
Verification of the Agent Coordination Memory Store
(src/server/services/agent_memory.py, src/server/services/memory_manager.py,
src/server/models.py and src/server/migrations/add_memory_resolution.py)
against its natural-language specification.

Modelling conventions:
* Timestamps are integers (seconds); `datetime.now()` is an explicit `now`
  parameter, `timedelta(hours=h)` is `h * 3600`, `timedelta(days=d)` is
  `d * 86400`.
* The `agent_memory` table is a list of `AgentMemory` records (the committed
  database state).  Column set is the one from `models.py` extended by the
  four columns added in `migrations/add_memory_resolution.py`
  (`updated_at`, `is_resolved`, `resolution_timestamp`, `resolution_reason`).
* `context_data` is a JSON column of which the code only ever reads/writes
  the key `annotations` (a list of timestamp/note/status entries); it is
  modelled by the list `context_annotations`, with `[]` standing for an
  absent key (the code creates the key only immediately before appending,
  so in every reachable state the key is present iff the list is nonempty).
* `key_findings` is a JSON column of which the rendering code only reads
  `urgent_items` and `deadlines` (both lists); it is modelled by those two
  lists.  `related_entities` is only ever consumed through its serialized
  text (`related_entities::text ILIKE ...` in `smart_resolve`), so it is
  modelled by that text.
* A SQLAlchemy `Session` is a committed store plus an identity-map cache:
  a query evaluates its filter on committed rows, but each returned row is
  replaced by the session's cached object of the same primary key when one
  exists (`viewRecord`).  `db.expire_all()` makes the next query return
  committed states; it is modelled by reading rows directly, bypassing the
  cache.
* SQL `ILIKE '%q%'` is a case-insensitive (ASCII lower-casing, as for the
  ASCII summaries at hand) substring test, modelled on lists of character
  codes; Python's case-sensitive `"[RESOLVED]" in s` is the same test
  without lower-casing.
-/

/-- One entry of `context_data["annotations"]` (written by `annotate_memory`
and `mark_resolved`): a timestamp, the user's note, and a status string. -/
structure AnnotationEntry where
  timestamp : Int
  note : String
  status : String
deriving Repr, DecidableEq

/-- The two `key_findings` keys read by the rendering code
(`get_coordination_context`): `urgent_items` and `deadlines`. -/
structure KeyFindings where
  urgent_items : List String
  deadlines : List String
deriving Repr, DecidableEq

/-- A row of the `agent_memory` table: the columns of `models.AgentMemory`
plus the resolution-tracking columns added by
`migrations/add_memory_resolution.py`. -/
structure AgentMemory where
  id : Nat
  agent_type : String
  event_type : String
  summary : String
  context_annotations : List AnnotationEntry
  key_findings : KeyFindings
  related_entities_text : String
  session_id : Option String := none
  email_id : Option String := none
  task_id : Option String := none
  delegation_id : Option String := none
  model_used : Option String := none
  tokens_used : Option Int := none
  confidence_score : Option Int := none
  created_at : Int
  updated_at : Option Int := none
  is_resolved : Bool := false
  resolution_timestamp : Option Int := none
  resolution_reason : Option String := none
deriving Repr, DecidableEq

/-- The committed contents of the `agent_memory` table. -/
abbrev Store := List AgentMemory

/-- A SQLAlchemy ORM session: the shared committed store plus the session's
identity-map cache of (possibly stale) record objects. -/
structure Session where
  db : Store
  cache : List AgentMemory
deriving Repr

/-- Identity-map semantics of a query result row: if the session already
holds an object with the row's primary key, the query returns that (possibly
stale) object; otherwise it returns the committed row. -/
def viewRecord (cache : List AgentMemory) (r : AgentMemory) : AgentMemory :=
  (cache.find? (fun c => c.id == r.id)).getD r

/-- Python truthiness of an optional string argument (`if email_id:` is
false both for `None` and for the empty string). -/
def optTruthy : Option String → Bool
  | some s => !s.isEmpty
  | none => false

/- ### Text matching (SQL ILIKE and Python `in`) -/

/-- ASCII lower-casing on a character code (the case folding performed by
`ILIKE` on the ASCII texts this system stores). -/
def lowerCode (n : Nat) : Nat := if 65 ≤ n ∧ n ≤ 90 then n + 32 else n

/-- Character codes of a string. -/
def strCodes (s : String) : List Nat := s.data.map Char.toNat

/-- Contiguous-substring test on code lists. -/
def containsCodes (hay needle : List Nat) : Bool :=
  match hay with
  | [] => needle.isEmpty
  | _ :: t => needle.isPrefixOf hay || containsCodes t needle

/-- Python's case-sensitive substring test `sub in s`. -/
def containsText (s sub : String) : Bool :=
  containsCodes (strCodes s) (strCodes sub)

/-- SQL `col ILIKE '%pat%'`: case-insensitive substring match. -/
def ilike (s pat : String) : Bool :=
  containsCodes ((strCodes s).map lowerCode) ((strCodes pat).map lowerCode)

/-- The check `"[RESOLVED]" in summary` used by `mark_resolved` and
`get_coordination_context`. -/
def hasResolvedMarker (s : String) : Bool := containsText s "[RESOLVED]"

/- ### Ordering (SQL ORDER BY created_at) -/

/-- The `order_by(created_at.desc())` ordering relation. -/
def newerFirst (a b : AgentMemory) : Prop := b.created_at ≤ a.created_at

/-- The `order_by(created_at.asc())` ordering relation. -/
def olderFirst (a b : AgentMemory) : Prop := a.created_at ≤ b.created_at

instance : DecidableRel newerFirst := fun _ _ => Int.decLe _ _

instance : DecidableRel olderFirst := fun _ _ => Int.decLe _ _

instance : IsTotal AgentMemory newerFirst :=
  ⟨fun a b => Int.le_total b.created_at a.created_at⟩

instance : IsTrans AgentMemory newerFirst :=
  ⟨fun _ _ _ h1 h2 => Int.le_trans h2 h1⟩

instance : IsTotal AgentMemory olderFirst :=
  ⟨fun a b => Int.le_total a.created_at b.created_at⟩

instance : IsTrans AgentMemory olderFirst :=
  ⟨fun _ _ _ h1 h2 => Int.le_trans h1 h2⟩

/-- Rows sorted newest-first. -/
def sortNewestFirst (l : List AgentMemory) : List AgentMemory :=
  List.insertionSort newerFirst l

/-- Rows sorted oldest-first. -/
def sortOldestFirst (l : List AgentMemory) : List AgentMemory :=
  List.insertionSort olderFirst l

/- ### AgentMemoryService (src/server/services/agent_memory.py) -/

/-- AgentMemoryService.record_event: builds one row and commits it.  The
durable write (`db.commit()`) either succeeds — exactly one new row — or the
transaction is rolled back (`db.rollback()`), the store is unchanged, and the
exception is re-raised.  The external commit outcome is the `commitOk`
oracle; `newId` stands for the generated UUID and `now` for the
`created_at` default `func.now()`. -/
def record_event (commitOk : Bool) (newId : Nat) (now : Int)
    (agent_type event_type summary : String)
    (context_annotations : List AnnotationEntry) (key_findings : KeyFindings)
    (related_entities_text : String)
    (email_id task_id session_id model_used : Option String)
    (tokens_used confidence_score : Option Int)
    (st : Store) : Store × Except String AgentMemory :=
  let memory : AgentMemory :=
    { id := newId
      agent_type := agent_type
      event_type := event_type
      summary := summary
      context_annotations := context_annotations
      key_findings := key_findings
      related_entities_text := related_entities_text
      session_id := session_id
      email_id := email_id
      task_id := task_id
      model_used := model_used
      tokens_used := tokens_used
      confidence_score := confidence_score
      created_at := now }
  if commitOk then (st ++ [memory], Except.ok memory)
  else (st, Except.error "WriteFailure")

/-- AgentMemoryService.get_recent_context: `db.expire_all()` then a query for
rows with `created_at >= now - hours`, optionally filtered by agent type,
newest-first, limited.  Because of the `expire_all`, the result consists of
committed row states: the session cache plays no part. -/
def get_recent_context (now : Int) (agent_type : Option String)
    (hours : Nat) (limit : Nat) (sess : Session) : List AgentMemory :=
  let cutoff : Int := now - (hours : Int) * 3600
  let q := sess.db.filter (fun m => cutoff ≤ m.created_at)
  let q := if optTruthy agent_type
    then q.filter (fun m => m.agent_type == agent_type.getD "")
    else q
  (sortNewestFirst q).take limit

/-- The OR-of-entity-ids filter built by `get_related_memory`. -/
def relatedPred (email_id task_id delegation_id : Option String)
    (m : AgentMemory) : Bool :=
  (optTruthy email_id && m.email_id == email_id) ||
  (optTruthy task_id && m.task_id == task_id) ||
  (optTruthy delegation_id && m.delegation_id == delegation_id)

/-- AgentMemoryService.get_related_memory: rows matching any given entity id,
oldest-first.  No ids at all returns `[]`.  There is NO `expire_all` here:
each returned row goes through the session's identity map (`viewRecord`),
so a stale cached object shadows the committed row. -/
def get_related_memory (email_id task_id delegation_id : Option String)
    (sess : Session) : List AgentMemory :=
  if !optTruthy email_id && !optTruthy task_id && !optTruthy delegation_id
  then []
  else
    (sortOldestFirst
        (sess.db.filter (relatedPred email_id task_id delegation_id))).map
      (viewRecord sess.cache)

/-- AgentMemoryService.search_memory: ILIKE substring match on `summary`
(after an optional agent-type filter), newest-first, limited.  There is NO
`expire_all` and no emptiness check on `query_text`: an empty query matches
every row, and results go through the session's identity map. -/
def search_memory (query_text : String) (agent_type : Option String)
    (limit : Nat) (sess : Session) : List AgentMemory :=
  let q := if optTruthy agent_type
    then sess.db.filter (fun m => m.agent_type == agent_type.getD "")
    else sess.db
  let q := q.filter (fun m => ilike m.summary query_text)
  ((sortNewestFirst q).take limit).map (viewRecord sess.cache)

/-- The record selection of `get_coordination_context` (lines 157-161):
`get_recent_context` with limit 100, then — unless `include_resolved` — drop
the rows whose summary contains the literal text `[RESOLVED]`.  The
`is_resolved` column is not consulted. -/
def coordinationMemories (now : Int) (hours : Nat) (include_resolved : Bool)
    (sess : Session) : List AgentMemory :=
  let memories := get_recent_context now none hours 100 sess
  if include_resolved then memories
  else memories.filter (fun m => !hasResolvedMarker m.summary)

/-- ASCII upper-casing of one character code (Python `str.upper()` on the
ASCII agent-type names). -/
def upperCode (n : Nat) : Nat := if 97 ≤ n ∧ n ≤ 122 then n - 32 else n

/-- Python `s.upper()` for the ASCII strings at hand. -/
def upperString (s : String) : String :=
  String.mk (s.data.map (fun c =>
    if 97 ≤ c.toNat ∧ c.toNat ≤ 122 then Char.ofNat (c.toNat - 32) else c))

/-- The distinct agent types of a memory list in first-occurrence order:
the key order of the `by_agent` dict built by `get_coordination_context`. -/
def firstOccKeys (ms : List AgentMemory) : List String :=
  ms.foldl
    (fun acc m =>
      if acc.contains m.agent_type then acc else acc ++ [m.agent_type]) []

/-- The `(User note: ...)` suffix: latest entry of
`context_data["annotations"]` when present. -/
def annotationNote (m : AgentMemory) : String :=
  match m.context_annotations.getLast? with
  | some a => " (User note: " ++ a.note ++ ")"
  | none => ""

/-- The lines appended for one record by the text branch of
`get_coordination_context`: the main `  - [<time>] <summary><note?>` line,
then an urgent-items bullet if `key_findings.urgent_items` is nonempty, then
a deadline-count bullet if `key_findings.deadlines` is nonempty.
`timeStr` abstracts `created_at.strftime('%b %d, %I:%M %p')`. -/
def recordLines (timeStr : Int → String) (m : AgentMemory) : List String :=
  ["  - [" ++ timeStr m.created_at ++ "] " ++ m.summary ++ annotationNote m]
  ++ (if m.key_findings.urgent_items.isEmpty then []
      else ["    🚨 Urgent: " ++
        String.intercalate ", " (m.key_findings.urgent_items.take 2)])
  ++ (if m.key_findings.deadlines.isEmpty then []
      else ["    📅 Deadlines: " ++
        toString m.key_findings.deadlines.length ++ " identified"])

/-- The list of lines built by the text branch of
`get_coordination_context` (lines 174-202), mirroring the imperative
append loops: a header, then per agent type a `<AGENT> Agent:` heading
followed by the lines of that agent's first 10 records. -/
def coordinationContextLines (timeStr : Int → String) (now : Int)
    (hours : Nat) (include_resolved : Bool) (sess : Session) : List String :=
  let memories := coordinationMemories now hours include_resolved sess
  (firstOccKeys memories).foldl
    (fun lines a =>
      ((memories.filter (fun m => m.agent_type == a)).take 10).foldl
        (fun ls mem => ls ++ recordLines timeStr mem)
        (lines ++ ["\n" ++ upperString a ++ " Agent:"]))
    ["AGENT MEMORY (Last " ++ toString hours ++ "h - Active items only):\n"]

/-- The text returned by `get_coordination_context(format="text")`:
`"\n".join(context_lines)`. -/
def coordinationContextText (timeStr : Int → String) (now : Int)
    (hours : Nat) (include_resolved : Bool) (sess : Session) : String :=
  String.intercalate "\n"
    (coordinationContextLines timeStr now hours include_resolved sess)

/-- The in-place mutation `annotate_memory` applies to each related record:
append one entry to `context_data["annotations"]`, then prefix the summary
with `[RESOLVED] ` if the status is `resolved` and the summary does not
already contain the bare text `RESOLVED`. -/
def annotateOne (now : Int) (note status : String)
    (m : AgentMemory) : AgentMemory :=
  let m1 := { m with context_annotations :=
    m.context_annotations ++ [⟨now, note, status⟩] }
  if status == "resolved" && !containsText m1.summary "RESOLVED" then
    { m1 with summary := "[RESOLVED] " ++ m1.summary }
  else m1

/-- AgentMemoryService.annotate_memory: fetches ALL records related to the
entity via `get_related_memory` (no time window, no active-only filter),
mutates each fetched object with `annotateOne` — already-resolved records
included — commits, and returns the list of all fetched records (not a
count).  Committing writes each mutated object back to its row; the store
component reflects that.  (`get_related_memory` is called with no
delegation id, matching the source.) -/
def annotate_memory (now : Int) (email_id task_id : Option String)
    (note : String) (status : String) (sess : Session) :
    Store × List AgentMemory :=
  let related := get_related_memory email_id task_id none sess
  let updated := related.map (annotateOne now note status)
  if !optTruthy email_id && !optTruthy task_id then (sess.db, updated)
  else
    (sess.db.map (fun r =>
        if relatedPred email_id task_id none r then
          annotateOne now note status (viewRecord sess.cache r)
        else r),
      updated)

/-- The selection predicate of `mark_resolved`: the email-id branch if an
email id is (truthily) given, else the ILIKE summary branch; both further
restricted to the last 7 days. -/
def markResolvedPred (now : Int) (email_id summary_text : Option String)
    (m : AgentMemory) : Bool :=
  (if optTruthy email_id then m.email_id == email_id
   else ilike m.summary (summary_text.getD "")) &&
  (now - 7 * 86400 ≤ m.created_at)

/-- The per-record update of `mark_resolved`: records whose summary already
contains `[RESOLVED]` are skipped (`continue`); the rest get one appended
annotation entry and the `[RESOLVED] ` summary prefix. -/
def markResolvedOne (now : Int) (note : String)
    (m : AgentMemory) : AgentMemory :=
  if hasResolvedMarker m.summary then m
  else
    { m with
      context_annotations := m.context_annotations ++ [⟨now, note, "resolved"⟩]
      summary := "[RESOLVED] " ++ m.summary }

/-- The row update of one `mark_resolved` call: selected rows go through
`markResolvedOne`, all other rows are untouched. -/
def markResolvedUpd (now : Int) (email_id summary_text : Option String)
    (note : String) (m : AgentMemory) : AgentMemory :=
  if markResolvedPred now email_id summary_text m then
    markResolvedOne now note m
  else m

/-- AgentMemoryService.mark_resolved: with neither criterion it returns 0;
otherwise it updates every selected not-yet-marked record via
`markResolvedOne`, commits, calls `db.expire_all()`, and returns the number
of records it changed.  The loop's per-object mutations followed by
`db.commit()` amount to mapping the update over the selected rows. -/
def mark_resolved (now : Int) (email_id summary_text : Option String)
    (note : String) (st : Store) : Store × Nat :=
  if !optTruthy email_id && !optTruthy summary_text then (st, 0)
  else
    (st.map (markResolvedUpd now email_id summary_text note),
      (st.filter (fun m => markResolvedPred now email_id summary_text m &&
        !hasResolvedMarker m.summary)).length)

/-- Iterated `mark_resolved` with the same arguments (for the idempotence
property). -/
def iterMarkResolved (now : Int) (email_id summary_text : Option String)
    (note : String) : Nat → Store → Store
  | 0, st => st
  | n + 1, st =>
    iterMarkResolved now email_id summary_text note n
      (mark_resolved now email_id summary_text note st).1

/- ### MemoryManager (src/server/services/memory_manager.py) -/

/-- MemoryManager.RETENTION_POLICIES: retention periods keyed by (intended)
event type, in insertion order.  Periods in seconds. -/
def RETENTION_POLICIES : List (String × Int) :=
  [("resolved", 3 * 86400),
   ("chat", 7 * 86400),
   ("email_analyzed", 14 * 86400),
   ("daily_brief", 30 * 86400),
   ("urgent", 7 * 86400)]

/-- The retention period `RETENTION_POLICIES` assigns to an event type,
if any. -/
def policyFor (event_type : String) : Option Int :=
  (RETENTION_POLICIES.find? (fun p => p.1 == event_type)).map (fun p => p.2)

/-- The serialized text of `context_data["annotations"]` entries, standing
for `context_data::text` in the SQL ILIKE filters.  The exact JSON
punctuation is immaterial to every property proved here; the searchable
payload is the entries' notes and statuses. -/
def ctxText (m : AgentMemory) : String :=
  String.intercalate " "
    (m.context_annotations.map (fun a => a.note ++ " " ++ a.status))

/-- The serialized text of `key_findings`, standing for
`key_findings::text`. -/
def findingsText (m : AgentMemory) : String :=
  String.intercalate " " (m.key_findings.urgent_items ++ m.key_findings.deadlines)

/-- The topic filter of `smart_resolve`: the topic ILIKE-matches the
summary, the context text, the findings text, or the related-entities
text. -/
def smartTopicMatch (topic : String) (m : AgentMemory) : Bool :=
  ilike m.summary topic || ilike (ctxText m) topic ||
  ilike (findingsText m) topic || ilike m.related_entities_text topic

/-- The optional context check of `smart_resolve`:
`context.lower() in (summary + " " + json.dumps(context_data)).lower()`. -/
def smartContextMatch (ctxFilter : Option String) (m : AgentMemory) : Bool :=
  match ctxFilter with
  | none => true
  | some c => ilike (m.summary ++ " " ++ ctxText m) c

/-- MemoryManager.smart_resolve: among unresolved (`is_resolved == False`)
rows matching the topic filter (and the context filter when given), set
`is_resolved`, `resolution_timestamp` and `resolution_reason` — note that
the summary text and its `[RESOLVED]` marker are NOT touched — and return
how many rows were resolved. -/
def smart_resolve (now : Int) (topic : String) (ctxFilter : Option String)
    (st : Store) : Store × Nat :=
  let pred := fun (m : AgentMemory) =>
    !m.is_resolved && smartTopicMatch topic m && smartContextMatch ctxFilter m
  (st.map (fun m =>
      if pred m then
        { m with
          is_resolved := true
          resolution_timestamp := some now
          resolution_reason := some ("Resolved: " ++ topic) }
      else m),
    (st.filter pred).length)

/-- The deletion predicate of one `expire_old_memories` pass: the row has
this policy's event type, is older than the policy cutoff, and is not
resolved (resolved rows are left to `cleanup_resolved_memories`). -/
def expirePred (now : Int) (p : String × Int) (m : AgentMemory) : Bool :=
  m.event_type == p.1 && m.created_at < now - p.2 && !m.is_resolved

/-- One loop iteration of `expire_old_memories`: delete this policy's
matching rows from the store and update the running stats. -/
def expireStep (now : Int) (acc : Store × Nat × List (String × Nat))
    (p : String × Int) : Store × Nat × List (String × Nat) :=
  let old := acc.1.filter (expirePred now p)
  (acc.1.filter (fun m => !expirePred now p m),
    acc.2.1 + old.length,
    if old.length > 0 then acc.2.2 ++ [(p.1, old.length)] else acc.2.2)

/-- MemoryManager.expire_old_memories (with `dry_run=False`): for each
retention policy in order, delete the unresolved rows of that event type
older than the policy's cutoff, tallying per-type counts for the stats
dict. -/
def expire_old_memories (now : Int) (st : Store) :
    Store × Nat × List (String × Nat) :=
  RETENTION_POLICIES.foldl (expireStep now) (st, 0, [])

/-- The duplicate summaries of a store: summaries carried by more than one
row (each listed once, in first-occurrence order) — the `GROUP BY summary
HAVING count > 1` query of `deduplicate_memories`. -/
def dupSummaries (st : Store) : List String :=
  ((st.map (fun m => m.summary)).eraseDups).filter
    (fun s => 1 < st.countP (fun m => m.summary == s))

/-- The victims of `deduplicate_memories` for one duplicate summary: all
rows with that summary, newest-first; the first (newest) is kept, and each
of the rest is deleted iff it was created within 3600 seconds of the
newest. -/
def dedupVictimIds (st : Store) (s : String) : List Nat :=
  match sortNewestFirst (st.filter (fun m => m.summary == s)) with
  | [] => []
  | newest :: rest =>
    (rest.filter (fun m => (newest.created_at - m.created_at).natAbs < 3600)).map
      (fun m => m.id)

/-- MemoryManager.deduplicate_memories (with `dry_run=False`): for each
summary held by more than one row, keep the newest row and delete the
others created within one hour of it; returns the new store and the number
of duplicates removed. -/
def deduplicate_memories (st : Store) : Store × Nat :=
  let victims := (dupSummaries st).flatMap (dedupVictimIds st)
  (st.filter (fun m => !victims.contains m.id), victims.length)

/- ### Concrete records used by counterexamples and witnesses -/

/-- Empty `key_findings`. -/
def kfEmpty : KeyFindings := ⟨[], []⟩

/-- A triage record about Pedro (active, no annotations). -/
def pedroTriage : AgentMemory :=
  { id := 1
    agent_type := "triage"
    event_type := "email_analyzed"
    summary := "Pedro called off dinner shift"
    context_annotations := []
    key_findings := kfEmpty
    related_entities_text := ""
    email_id := some "e1"
    created_at := 1000 }

/-- A daily-brief record about Pedro (active, no annotations). -/
def pedroBrief : AgentMemory :=
  { id := 2
    agent_type := "daily_brief"
    event_type := "digest_generated"
    summary := "Flagged Pedro coverage gap"
    context_annotations := []
    key_findings := kfEmpty
    related_entities_text := ""
    created_at := 2000 }

/-- A record that has already been resolved through `mark_resolved`:
marked summary, one annotation entry. -/
def resolvedRec : AgentMemory :=
  { id := 3
    agent_type := "triage"
    event_type := "email_analyzed"
    summary := "[RESOLVED] Pedro called off dinner shift"
    context_annotations := [⟨500, "first note", "resolved"⟩]
    key_findings := kfEmpty
    related_entities_text := ""
    email_id := some "e1"
    created_at := 1000 }

/-- A record resolved through `smart_resolve`: `is_resolved` set, summary
unmarked. -/
def smartResolvedRec : AgentMemory :=
  { id := 4
    agent_type := "triage"
    event_type := "email_analyzed"
    summary := "Pedro coverage gap"
    context_annotations := []
    key_findings := kfEmpty
    related_entities_text := ""
    created_at := 1000
    is_resolved := true
    resolution_timestamp := some 2000
    resolution_reason := some "Resolved: pedro" }

/-- The stale cached copy a long-lived session still holds of record 3:
the state before another session resolved it. -/
def staleRec : AgentMemory :=
  { id := 3
    agent_type := "triage"
    event_type := "email_analyzed"
    summary := "Pedro called off dinner shift"
    context_annotations := []
    key_findings := kfEmpty
    related_entities_text := ""
    email_id := some "e1"
    created_at := 1000 }

/-- A session whose identity map still caches the pre-resolution state of
record 3 while the committed row is resolved. -/
def staleSession : Session := ⟨[resolvedRec], [staleRec]⟩

/-- First of three identical-summary records, 5 minutes apart. -/
def dupOldest : AgentMemory :=
  { id := 11
    agent_type := "triage"
    event_type := "email_analyzed"
    summary := "Pedro called off dinner shift"
    context_annotations := []
    key_findings := kfEmpty
    related_entities_text := ""
    created_at := 0 }

/-- Second of three identical-summary records, 5 minutes apart. -/
def dupMiddle : AgentMemory := { dupOldest with id := 12, created_at := 300 }

/-- Third (newest) of three identical-summary records, 5 minutes apart. -/
def dupNewest : AgentMemory := { dupOldest with id := 13, created_at := 600 }

/-- An unresolved email-analysis record far past its 14-day retention. -/
def oldEmailRec : AgentMemory := { dupOldest with id := 21, created_at := 0 }

/-- An unresolved task-created record far past every retention period. -/
def oldTaskRec : AgentMemory :=
  { dupOldest with id := 22, event_type := "task_created", created_at := 0 }

/-- The event types permitted by the `check_event_type` constraint of
`models.AgentMemory`. -/
def permittedEventTypes : List String :=
  ["email_analyzed", "task_created", "delegation_suggested",
   "question_answered", "digest_generated", "deadline_identified",
   "urgent_item_flagged"]

/- ### General lemmas -/

theorem containsCodes_nil (hay : List Nat) : containsCodes hay [] = true := by
  cases hay <;> simp [containsCodes, List.isPrefixOf]

theorem isPrefixOf_append_self (xs rest : List Nat) :
    xs.isPrefixOf (xs ++ rest) = true := by
  induction xs with
  | nil => simp [List.isPrefixOf]
  | cons a t ih => simp [List.isPrefixOf, ih]

theorem containsCodes_append_self (needle rest : List Nat) :
    containsCodes (needle ++ rest) needle = true := by
  cases needle with
  | nil => simpa using containsCodes_nil rest
  | cons a t =>
    have hp : (a :: t).isPrefixOf (a :: t ++ rest) = true :=
      isPrefixOf_append_self (a :: t) rest
    show containsCodes (a :: (t ++ rest)) (a :: t) = true
    simp [containsCodes, hp]

theorem strCodes_append (a b : String) :
    strCodes (a ++ b) = strCodes a ++ strCodes b := by
  simp [strCodes]

theorem hasResolvedMarker_of_marked_append (s : String) :
    hasResolvedMarker ("[RESOLVED] " ++ s) = true := by
  have h1 : "[RESOLVED] " ++ s = "[RESOLVED]" ++ (" " ++ s) := by
    rw [← String.append_assoc]
    exact rfl
  rw [hasResolvedMarker, containsText, h1, strCodes_append]
  exact containsCodes_append_self _ _

theorem mem_sortNewestFirst {l : List AgentMemory} {x : AgentMemory} :
    x ∈ sortNewestFirst l ↔ x ∈ l := List.mem_insertionSort newerFirst

theorem mem_sortOldestFirst {l : List AgentMemory} {x : AgentMemory} :
    x ∈ sortOldestFirst l ↔ x ∈ l := List.mem_insertionSort olderFirst

theorem length_sortNewestFirst (l : List AgentMemory) :
    (sortNewestFirst l).length = l.length := List.length_insertionSort _ l

theorem length_sortOldestFirst (l : List AgentMemory) :
    (sortOldestFirst l).length = l.length := List.length_insertionSort _ l

theorem sorted_sortNewestFirst (l : List AgentMemory) :
    List.Sorted newerFirst (sortNewestFirst l) :=
  List.sorted_insertionSort newerFirst l

theorem viewRecord_nil (r : AgentMemory) : viewRecord [] r = r := rfl

example : containsText "[RESOLVED] Pedro" "[RESOLVED]" = true := by decide

example : ilike "Pedro called off" "PEDRO" = true := by decide

example : ilike "Pedro called off" "maria" = false := by decide

example : ilike "anything" "" = true := by decide

theorem map_viewRecord_nil (l : List AgentMemory) :
    l.map (viewRecord []) = l := List.map_id l

/- ### C7 -/

/-- C7: `record_event` either persists exactly one new record (the store
becomes the old store plus the returned record, nothing else changes) or
raises on durable-write failure leaving the store exactly as it was —
atomicity of the single insert. -/
theorem record_event_atomic (commitOk : Bool) (newId : Nat) (now : Int)
    (agent_type event_type summary : String)
    (ca : List AnnotationEntry) (kf : KeyFindings) (ret : String)
    (email_id task_id session_id model_used : Option String)
    (tokens_used confidence_score : Option Int) (st : Store) :
    (∃ m,
      (record_event commitOk newId now agent_type event_type summary ca kf ret
          email_id task_id session_id model_used tokens_used confidence_score
          st).2 = Except.ok m ∧
      (record_event commitOk newId now agent_type event_type summary ca kf ret
          email_id task_id session_id model_used tokens_used confidence_score
          st).1 = st ++ [m]) ∨
    ((record_event commitOk newId now agent_type event_type summary ca kf ret
        email_id task_id session_id model_used tokens_used confidence_score
        st).2 = Except.error "WriteFailure" ∧
      (record_event commitOk newId now agent_type event_type summary ca kf ret
        email_id task_id session_id model_used tokens_used confidence_score
        st).1 = st) := by
  cases commitOk
  · exact Or.inr ⟨rfl, rfl⟩
  · exact Or.inl ⟨_, rfl, rfl⟩

/- ### C1 -/

/-- C1 counterexample: `search_memory` does NOT force invalidation of the
session-local cache.  In a session whose identity map still holds the
pre-resolution state of record 3 while the committed row has been resolved
by another session, a search returns the stale cached state, not the
committed one. -/
theorem search_memory_returns_stale :
    search_memory "Pedro" none 20 staleSession = [staleRec] ∧
    staleSession.db = [resolvedRec] ∧
    staleRec.id = resolvedRec.id ∧
    staleRec.summary ≠ resolvedRec.summary ∧
    staleRec ∉ staleSession.db := by decide

/-- C1 amended: only `get_recent_context` — and therefore
`get_coordination_context`, which reads through it — forces a fresh read:
its result is independent of the session cache and consists solely of
committed record states.  (`get_related_memory` and `search_memory` read
through the identity map and can return stale states, as the
counterexample shows.) -/
theorem recent_and_coordination_read_fresh (now : Int)
    (agent_type : Option String) (hours limit : Nat) (sess : Session) :
    (∀ cache2, get_recent_context now agent_type hours limit ⟨sess.db, cache2⟩ =
      get_recent_context now agent_type hours limit sess) ∧
    (∀ r, r ∈ get_recent_context now agent_type hours limit sess →
      r ∈ sess.db) ∧
    (∀ include_resolved r,
      r ∈ coordinationMemories now hours include_resolved sess → r ∈ sess.db) := by
  have key : ∀ (h2 l2 : Nat) (a2 : Option String) (r : AgentMemory),
      r ∈ get_recent_context now a2 h2 l2 sess → r ∈ sess.db := by
    intro h2 l2 a2 r hr
    simp only [get_recent_context] at hr
    have h1 := List.mem_of_mem_take hr
    rw [mem_sortNewestFirst] at h1
    split at h1
    · exact List.mem_of_mem_filter (List.mem_of_mem_filter h1)
    · exact List.mem_of_mem_filter h1
  refine ⟨fun _ => rfl, key hours limit agent_type, ?_⟩
  intro ir r hr
  simp only [coordinationMemories] at hr
  split at hr
  · exact key hours 100 none r hr
  · exact key hours 100 none r (List.mem_of_mem_filter hr)

/-- Closed instance of the amended C1 theorem: on the stale session, the
fresh-reading entry point returns the committed resolved state. -/
theorem recent_and_coordination_read_fresh_witness :
    resolvedRec ∈ get_recent_context 1000 none 24 50 staleSession ∧
    resolvedRec ∈ staleSession.db :=
  ⟨by decide,
   (recent_and_coordination_read_fresh 1000 none 24 50 staleSession).2.1
     resolvedRec (by decide)⟩

/- ### C3 -/

/-- C3 counterexample: `get_coordination_context` does not treat the
`is_resolved` state column as the source of truth — it parses the
`[RESOLVED]` text marker instead.  A record resolved through
`smart_resolve` (state column set, summary untouched) is still included
with `include_resolved = false`. -/
theorem coordination_ignores_state_column :
    smartResolvedRec.is_resolved = true ∧
    smartResolvedRec ∈ coordinationMemories 1000 24 false ⟨[smartResolvedRec], []⟩ := by
  decide

/-- C3 amended: with `include_resolved = false`, `get_coordination_context`
includes a record (of a window-covered store of at most 100 rows) iff its
summary does not contain the literal text `[RESOLVED]`; the `is_resolved`
column plays no part in the filter. -/
theorem coordination_filters_by_marker (now : Int) (hours : Nat)
    (sess : Session) (r : AgentMemory) (hlen : sess.db.length ≤ 100)
    (hwin : ∀ m ∈ sess.db, now - (hours : Int) * 3600 ≤ m.created_at) :
    r ∈ coordinationMemories now hours false sess ↔
      r ∈ sess.db ∧ hasResolvedMarker r.summary = false := by
  have hrc : get_recent_context now none hours 100 sess =
      sortNewestFirst sess.db := by
    simp only [get_recent_context, optTruthy, Bool.false_eq_true, if_false]
    rw [List.filter_eq_self.mpr (fun m hm => by
      simpa using hwin m hm)]
    exact List.take_of_length_le (by rw [length_sortNewestFirst]; exact hlen)
  simp only [coordinationMemories, hrc, Bool.false_eq_true, if_false]
  rw [List.mem_filter, mem_sortNewestFirst]
  simp

/-- Closed instance of the amended C3 theorem. -/
theorem coordination_filters_by_marker_witness :
    pedroTriage ∈ coordinationMemories 1000 24 false ⟨[pedroTriage], []⟩ ↔
      pedroTriage ∈ ([pedroTriage] : Store) ∧
        hasResolvedMarker pedroTriage.summary = false :=
  coordination_filters_by_marker 1000 24 ⟨[pedroTriage], []⟩ pedroTriage
    (by decide) (by decide)

/- ### C8 -/

/-- C8 counterexample: an empty `query_text` does not yield the empty list —
`ILIKE '%%'` matches every row, so the search returns records entirely
unrelated to the (empty) query. -/
theorem search_empty_query_matches_all :
    search_memory "" none 20 ⟨[pedroTriage], []⟩ = [pedroTriage] := by decide

/-- C8 amended: `search_memory` performs a case-insensitive substring match
on `summary` and returns results newest-first; two queries equal up to
ASCII case give identical results; but an empty query matches every record
(returning the whole store newest-first when it fits the limit) rather
than returning the empty list. -/
theorem search_memory_behavior (query_text : String)
    (agent_type : Option String) (limit : Nat) (sess : Session)
    (hc : sess.cache = []) :
    List.Sorted newerFirst (search_memory query_text agent_type limit sess) ∧
    (∀ r, r ∈ search_memory query_text agent_type limit sess →
      r ∈ sess.db ∧ ilike r.summary query_text = true) ∧
    (∀ q2, (strCodes query_text).map lowerCode = (strCodes q2).map lowerCode →
      search_memory query_text agent_type limit sess =
        search_memory q2 agent_type limit sess) ∧
    (optTruthy agent_type = false → sess.db.length ≤ limit →
      search_memory "" agent_type limit sess = sortNewestFirst sess.db) := by
  refine ⟨?_, ?_, ?_, ?_⟩
  · simp only [search_memory, hc, map_viewRecord_nil]
    exact (sorted_sortNewestFirst _).sublist (List.take_sublist _ _)
  · intro r hr
    simp only [search_memory, hc, map_viewRecord_nil] at hr
    have h1 := List.mem_of_mem_take hr
    rw [mem_sortNewestFirst, List.mem_filter] at h1
    refine ⟨?_, h1.2⟩
    rcases h1 with ⟨h2, -⟩
    split at h2
    · exact List.mem_of_mem_filter h2
    · exact h2
  · intro q2 hq
    simp only [search_memory]
    rw [List.filter_congr (fun m _ => ?_)]
    simp only [ilike, hq]
  · intro ha hl
    simp only [search_memory, hc, map_viewRecord_nil, ha, Bool.false_eq_true,
      if_false]
    rw [List.filter_eq_self.mpr (fun m _ => ?_)]
    · exact List.take_of_length_le (by rw [length_sortNewestFirst]; exact hl)
    · simp [ilike, strCodes, containsCodes_nil]

/-- Closed instance of the amended C8 theorem: `search("PEDRO")` and
`search("pedro")` return identical results. -/
theorem search_memory_behavior_witness :
    search_memory "PEDRO" none 20 ⟨[pedroTriage], []⟩ =
      search_memory "pedro" none 20 ⟨[pedroTriage], []⟩ :=
  (search_memory_behavior "PEDRO" none 20 ⟨[pedroTriage], []⟩ rfl).2.2.1
    "pedro" (by decide)

/- ### Expiry characterization (C5, C10) -/

theorem expire_fold_store (now : Int) :
    ∀ (ps : List (String × Int)) (acc : Store × Nat × List (String × Nat)),
      (ps.foldl (expireStep now) acc).1 =
        acc.1.filter (fun m => ps.all (fun p => !expirePred now p m)) := by
  intro ps
  induction ps with
  | nil => intro acc; simp
  | cons p t ih =>
    intro acc
    rw [List.foldl_cons, ih]
    show (acc.1.filter (fun m => !expirePred now p m)).filter _ = _
    simp [List.filter_filter, List.all_cons, Bool.and_comm]

theorem expire_mem (now : Int) (st : Store) (r : AgentMemory) :
    r ∈ (expire_old_memories now st).1 ↔
      r ∈ st ∧ ∀ p ∈ RETENTION_POLICIES, expirePred now p r = false := by
  rw [expire_old_memories, expire_fold_store, List.mem_filter]
  simp

/-- C5: `expire_old_memories` never deletes a record younger than the
`max_age` its retention policy assigns to the record's event type, and
never deletes a resolved record: whenever a record is deleted, it was
unresolved and a policy for its exact event type existed whose cutoff it
had passed. -/
theorem expire_never_deletes_young_or_resolved (now : Int) (st : Store)
    (r : AgentMemory) (hmem : r ∈ st)
    (hdel : r ∉ (expire_old_memories now st).1) :
    r.is_resolved = false ∧
    ∃ p, policyFor r.event_type = some p ∧ r.created_at < now - p := by
  rw [expire_mem] at hdel
  push_neg at hdel
  obtain ⟨p, hp, hpred⟩ := hdel hmem
  rw [ne_eq, Bool.not_eq_false] at hpred
  simp only [RETENTION_POLICIES, List.mem_cons, List.not_mem_nil, or_false]
    at hp
  rcases hp with rfl | rfl | rfl | rfl | rfl <;>
    (simp only [expirePred, Bool.and_eq_true, beq_iff_eq, decide_eq_true_eq,
      Bool.not_eq_true'] at hpred
     obtain ⟨⟨het, hage⟩, hres⟩ := hpred
     exact ⟨hres, _, by rw [het]; decide, hage⟩)

/-- Closed instance of the C5 theorem: a 115-day-old unresolved
email-analysis record is deleted, and the theorem certifies it was past
its policy cutoff and unresolved. -/
theorem expire_never_deletes_young_or_resolved_witness :
    oldEmailRec.is_resolved = false ∧
    ∃ p, policyFor oldEmailRec.event_type = some p ∧
      oldEmailRec.created_at < 10000000 - p :=
  expire_never_deletes_young_or_resolved 10000000 [oldEmailRec] oldEmailRec
    (by decide) (by decide)

/-- Auxiliary fact: a record whose event type differs from a policy's key
is untouched by that policy's pass. -/
theorem expirePred_false_of_ne {now : Int} {p : String × Int}
    {m : AgentMemory} (h : m.event_type ≠ p.1) :
    expirePred now p m = false := by
  simp [expirePred, beq_eq_false_iff_ne.mpr h]

/-- C10: among the event types permitted by the `check_event_type`
constraint, `expire_old_memories` can only ever delete `email_analyzed`
(or `daily_brief`) records; records of every other permitted event type
survive regardless of age, because the remaining retention-policy keys
(`resolved`, `chat`, `urgent`) match no permitted event type. -/
theorem expire_frame_other_kinds (now : Int) (st : Store) (r : AgentMemory)
    (hmem : r ∈ st) (hperm : r.event_type ∈ permittedEventTypes) :
    (r ∉ (expire_old_memories now st).1 →
      r.event_type = "email_analyzed" ∨ r.event_type = "daily_brief") ∧
    (r.event_type ≠ "email_analyzed" →
      r ∈ (expire_old_memories now st).1) := by
  simp only [permittedEventTypes, List.mem_cons, List.not_mem_nil, or_false]
    at hperm
  constructor
  · intro hdel
    rw [expire_mem] at hdel
    push_neg at hdel
    obtain ⟨p, hp, hpred⟩ := hdel hmem
    rw [ne_eq, Bool.not_eq_false] at hpred
    simp only [RETENTION_POLICIES, List.mem_cons, List.not_mem_nil, or_false]
      at hp
    rcases hp with rfl | rfl | rfl | rfl | rfl <;>
      (simp only [expirePred, Bool.and_eq_true, beq_iff_eq] at hpred
       obtain ⟨⟨het, -⟩, -⟩ := hpred
       first
       | exact Or.inl het
       | exact Or.inr het
       | (rw [het] at hperm
          rcases hperm with h | h | h | h | h | h | h <;> exact absurd h (by decide)))
  · intro hne
    rw [expire_mem]
    refine ⟨hmem, fun p hp => ?_⟩
    simp only [RETENTION_POLICIES, List.mem_cons, List.not_mem_nil, or_false]
      at hp
    rcases hperm with h | h | h | h | h | h | h <;>
      [exact absurd h hne; skip; skip; skip; skip; skip; skip] <;>
      rcases hp with rfl | rfl | rfl | rfl | rfl <;>
      exact expirePred_false_of_ne (by rw [h]; decide)

/-- Closed instance of the C10 theorem: an arbitrarily old unresolved
`task_created` record survives expiry. -/
theorem expire_frame_other_kinds_witness :
    oldTaskRec ∈ (expire_old_memories 10000000 [oldTaskRec]).1 :=
  (expire_frame_other_kinds 10000000 [oldTaskRec] oldTaskRec (by decide)
    (by decide)).2 (by decide)

/- ### Deduplication characterization (C6) -/

theorem dedup_mem (st : Store) (r : AgentMemory) :
    r ∈ (deduplicate_memories st).1 ↔
      r ∈ st ∧ r.id ∉ (dupSummaries st).flatMap (dedupVictimIds st) := by
  simp [deduplicate_memories, List.mem_filter]

/-- C6: `deduplicate_memories` never deletes the newest record of an
identical-summary group — every deleted record leaves behind a kept record
with the same summary, at least as new, within the one-hour window — and
on three identical-summary records created 5 minutes apart it removes
exactly the two older ones, keeping the newest. -/
theorem dedup_safety :
    (∀ (st : Store) (r : AgentMemory),
      (st.map (fun m => m.id)).Nodup → r ∈ st →
      r ∉ (deduplicate_memories st).1 →
      ∃ w, w ∈ (deduplicate_memories st).1 ∧ w.summary = r.summary ∧
        r.created_at ≤ w.created_at ∧
        (w.created_at - r.created_at).natAbs < 3600) ∧
    deduplicate_memories [dupOldest, dupMiddle, dupNewest] =
      ([dupNewest], 2) := by
  constructor
  · intro st r hids hmem hdel
    rw [dedup_mem] at hdel
    push_neg at hdel
    have hvic : r.id ∈ (dupSummaries st).flatMap (dedupVictimIds st) :=
      hdel hmem
    rw [List.mem_flatMap] at hvic
    obtain ⟨s, hs, hid⟩ := hvic
    unfold dedupVictimIds at hid
    cases hg : sortNewestFirst (st.filter (fun m => m.summary == s)) with
    | nil => rw [hg] at hid; simp at hid
    | cons newest rest =>
      rw [hg] at hid
      simp only [List.mem_map, List.mem_filter, decide_eq_true_eq] at hid
      obtain ⟨x, ⟨hxrest, hxwin⟩, hxid⟩ := hid
      have hxg : x ∈ st.filter (fun m => m.summary == s) := by
        rw [← mem_sortNewestFirst, hg]
        exact List.mem_cons_of_mem _ hxrest
      obtain ⟨hxst, hxsum⟩ := List.mem_filter.mp hxg
      have hxr : x = r := List.inj_on_of_nodup_map hids hxst hmem hxid
      have hng : newest ∈ st.filter (fun m => m.summary == s) := by
        rw [← mem_sortNewestFirst, hg]
        exact List.mem_cons_self _ _
      obtain ⟨hnst, hnsum⟩ := List.mem_filter.mp hng
      have hsorted : List.Sorted newerFirst (newest :: rest) := by
        rw [← hg]; exact sorted_sortNewestFirst _
      have hnd : ((newest :: rest).map (fun m => m.id)).Nodup := by
        have hnd0 :
            ((st.filter (fun m => m.summary == s)).map
              (fun m => m.id)).Nodup :=
          hids.sublist ((List.filter_sublist st).map _)
        have hperm :
            List.Perm
              ((sortNewestFirst (st.filter (fun m => m.summary == s))).map
                (fun m => m.id))
              ((st.filter (fun m => m.summary == s)).map (fun m => m.id)) :=
          (List.perm_insertionSort _ _).map _
        rw [← hg]
        exact hperm.symm.nodup hnd0
      have hnot :
          newest.id ∉ (dupSummaries st).flatMap (dedupVictimIds st) := by
        intro hcon
        rw [List.mem_flatMap] at hcon
        obtain ⟨s2, hs2, hid2⟩ := hcon
        unfold dedupVictimIds at hid2
        cases hg2 : sortNewestFirst (st.filter (fun m => m.summary == s2)) with
        | nil => rw [hg2] at hid2; simp at hid2
        | cons n2 r2 =>
          rw [hg2] at hid2
          simp only [List.mem_map, List.mem_filter, decide_eq_true_eq] at hid2
          obtain ⟨y, ⟨hyr2, -⟩, hyid⟩ := hid2
          have hyg : y ∈ st.filter (fun m => m.summary == s2) := by
            rw [← mem_sortNewestFirst, hg2]
            exact List.mem_cons_of_mem _ hyr2
          obtain ⟨hyst, hysum⟩ := List.mem_filter.mp hyg
          have hyn : y = newest :=
            List.inj_on_of_nodup_map hids hyst hnst hyid
          have hs2s : s2 = s := by
            have h1 : y.summary = s2 := by simpa using hysum
            have h2 : newest.summary = s := by simpa using hnsum
            rw [← h1, hyn, h2]
          rw [hs2s, hg] at hg2
          have hn2 : n2 = newest := (List.cons.injEq _ _ _ _ ▸ hg2).1.symm
          have hr2 : r2 = rest := (List.cons.injEq _ _ _ _ ▸ hg2).2.symm
          have : newest ∈ rest := by rw [← hr2, ← hyn]; exact hyr2
          have hmm : newest.id ∈ rest.map (fun m => m.id) :=
            List.mem_map.mpr ⟨newest, this, rfl⟩
          exact (List.nodup_cons.mp hnd).1 hmm
      refine ⟨newest, ?_, ?_, ?_, ?_⟩
      · rw [dedup_mem]; exact ⟨hnst, hnot⟩
      · have h1 : x.summary = s := by simpa using hxsum
        have h2 : newest.summary = s := by simpa using hnsum
        rw [h2, ← h1, hxr]
      · have := List.rel_of_sorted_cons hsorted x hxrest
        rw [← hxr]
        exact this
      · rw [← hxr]
        exact hxwin
  · decide

/-- Closed instance of the C6 theorem: the deleted oldest duplicate leaves
a kept same-summary record at most an hour newer. -/
theorem dedup_safety_witness :
    ∃ w, w ∈ (deduplicate_memories [dupOldest, dupMiddle, dupNewest]).1 ∧
      w.summary = dupOldest.summary ∧
      dupOldest.created_at ≤ w.created_at ∧
      (w.created_at - dupOldest.created_at).natAbs < 3600 :=
  dedup_safety.1 [dupOldest, dupMiddle, dupNewest] dupOldest (by decide)
    (by decide) (by decide)

/- ### Resolution operations (C2, C4) -/

theorem annotateOne_annotations (now : Int) (note status : String)
    (m : AgentMemory) :
    (annotateOne now note status m).context_annotations =
      m.context_annotations ++ [⟨now, note, status⟩] := by
  simp only [annotateOne]
  split <;> rfl

theorem markResolvedUpd_marked {now : Int} {email_id summary_text : Option String}
    {note : String} {m : AgentMemory}
    (h : hasResolvedMarker m.summary = true) :
    markResolvedUpd now email_id summary_text note m = m := by
  simp [markResolvedUpd, markResolvedOne, h]

/-- C2 counterexample: `annotate_memory` does not select only Active
records — on an entity whose sole related record is already resolved
(marked summary, one annotation) it appends a second annotation and
reports the record as updated, instead of changing nothing and returning
0. -/
theorem annotate_appends_to_resolved :
    ((annotate_memory 3000 (some "e1") none "second note" "resolved"
        ⟨[resolvedRec], []⟩).2.map
      (fun m => m.context_annotations.length)) = [2] ∧
    resolvedRec.context_annotations.length = 1 ∧
    hasResolvedMarker resolvedRec.summary = true := by decide

/-- C2 amended: `mark_resolved` (resolve-by-text) behaves as claimed: it
returns the number of not-yet-marked records matching the text within the
7-day window (0 when nothing matches), appends exactly one annotation to
each such record and prefixes its summary with `[RESOLVED] ` exactly once,
leaving every other row unchanged.  `annotate_memory`
(resolve-by-entity), however, selects ALL records related to the entity —
with no lookback window and regardless of resolution state — appends an
annotation to every one of them (already-resolved records included), and
returns the list of all related records rather than the number changed. -/
theorem resolution_ops_behavior (now : Int) (topic note : String) (st : Store)
    (ht : optTruthy (some topic) = true) :
    ((mark_resolved now none (some topic) note st).2 =
      st.countP (fun m => markResolvedPred now none (some topic) m &&
        !hasResolvedMarker m.summary)) ∧
    ((∀ m ∈ st, markResolvedPred now none (some topic) m = false) →
      (mark_resolved now none (some topic) note st).2 = 0) ∧
    (∀ (i : Nat) (r : AgentMemory), st[i]? = some r →
      ((markResolvedPred now none (some topic) r = true ∧
          hasResolvedMarker r.summary = false) →
        (mark_resolved now none (some topic) note st).1[i]? = some
          { r with
            context_annotations := r.context_annotations ++
              [({ timestamp := now, note := note, status := "resolved" } :
                AnnotationEntry)]
            summary := "[RESOLVED] " ++ r.summary }) ∧
      ((markResolvedPred now none (some topic) r = false ∨
          hasResolvedMarker r.summary = true) →
        (mark_resolved now none (some topic) note st).1[i]? = some r)) ∧
    (∀ (status : String) (email : Option String) (sess : Session),
      sess.cache = [] → optTruthy email = true →
      ((annotate_memory now email none note status sess).2.length =
        sess.db.countP (relatedPred email none none)) ∧
      (∀ u ∈ (annotate_memory now email none note status sess).2,
        ∃ r2, r2 ∈ sess.db ∧ relatedPred email none none r2 = true ∧
          u.context_annotations = r2.context_annotations ++
            [({ timestamp := now, note := note, status := status } :
              AnnotationEntry)])) := by
  have hcond : ¬((!optTruthy (none : Option String) &&
      !optTruthy (some topic)) = true) := by
    simp [optTruthy] at ht ⊢
    simp [ht]
  refine ⟨?_, ?_, ?_, ?_⟩
  · rw [mark_resolved, if_neg hcond]
    exact (List.countP_eq_length_filter _ _).symm
  · intro hno
    rw [mark_resolved, if_neg hcond]
    show (st.filter _).length = 0
    rw [List.length_eq_zero, List.filter_eq_nil_iff]
    intro m hm
    simp [hno m hm]
  · intro i r hr
    constructor
    · rintro ⟨hp, hm⟩
      rw [mark_resolved, if_neg hcond]
      show (st.map _)[i]? = _
      rw [List.getElem?_map, hr, Option.map_some']
      simp [markResolvedUpd, markResolvedOne, hp, hm]
    · intro hcase
      rw [mark_resolved, if_neg hcond]
      show (st.map _)[i]? = _
      rw [List.getElem?_map, hr, Option.map_some']
      rcases hcase with hp | hm
      · simp [markResolvedUpd, hp]
      · rw [markResolvedUpd_marked hm]
  · intro status email sess hc he
    have hcond2 : ¬((!optTruthy email &&
        !optTruthy (none : Option String)) = true) := by
      simp [he]
    have hcond3 : ¬((!optTruthy email && !optTruthy (none : Option String) &&
        !optTruthy (none : Option String)) = true) := by
      simp [he]
    constructor
    · rw [annotate_memory, if_neg hcond2]
      show ((get_related_memory email none none sess).map _).length = _
      rw [List.length_map, get_related_memory, if_neg hcond3, hc,
        map_viewRecord_nil, length_sortOldestFirst,
        List.countP_eq_length_filter]
    · intro u hu
      rw [annotate_memory, if_neg hcond2] at hu
      replace hu : u ∈ (get_related_memory email none none sess).map
          (annotateOne now note status) := hu
      rw [List.mem_map] at hu
      obtain ⟨r2, hr2, rfl⟩ := hu
      rw [get_related_memory, if_neg hcond3, hc, map_viewRecord_nil,
        mem_sortOldestFirst, List.mem_filter] at hr2
      exact ⟨r2, hr2.1, hr2.2, annotateOne_annotations now note status r2⟩

/-- Closed instance of the amended C2 theorem: the Pedro scenario resolves
both active Pedro records, and the reported count equals the number of
matching active records. -/
theorem resolution_ops_behavior_witness :
    (mark_resolved 3000 none (some "pedro") "handled by manager"
        [pedroTriage, pedroBrief]).2 =
      ([pedroTriage, pedroBrief] : Store).countP
        (fun m => markResolvedPred 3000 none (some "pedro") m &&
          !hasResolvedMarker m.summary) :=
  (resolution_ops_behavior 3000 "pedro" "handled by manager"
    [pedroTriage, pedroBrief] (by decide)).1

theorem marker_markResolvedOne {now : Int} {note : String} {m : AgentMemory}
    (hm : hasResolvedMarker m.summary = false) :
    hasResolvedMarker (markResolvedOne now note m).summary = true := by
  simp [markResolvedOne, hm, hasResolvedMarker_of_marked_append]

/-- The selection predicate of `mark_resolved` only looks at the summary,
the email id and the creation time, so an untouched row keeps its
selection status and a prefixed row becomes (and stays) marked: after one
pass, no row is both selected and unmarked. -/
theorem markResolvedUpd_dead (now : Int) (topic note : String)
    (m : AgentMemory) :
    (markResolvedPred now none (some topic)
        (markResolvedUpd now none (some topic) note m) &&
      !hasResolvedMarker
        (markResolvedUpd now none (some topic) note m).summary) = false := by
  by_cases hm : hasResolvedMarker m.summary = true
  · rw [markResolvedUpd_marked hm]
    simp [hm]
  · rw [Bool.not_eq_true] at hm
    by_cases hp : markResolvedPred now none (some topic) m = true
    · simp [markResolvedUpd, hp, marker_markResolvedOne hm]
    · rw [Bool.not_eq_true] at hp
      simp [markResolvedUpd, hp]

theorem mark_resolved_getElem (now : Int) (topic note : String) (st : Store)
    (ht : optTruthy (some topic) = true) (i : Nat) :
    (mark_resolved now none (some topic) note st).1[i]? =
      st[i]?.map (markResolvedUpd now none (some topic) note) := by
  have hcond : ¬((!optTruthy (none : Option String) &&
      !optTruthy (some topic)) = true) := by simp [ht]
  rw [mark_resolved, if_neg hcond]
  exact List.getElem?_map _ st i

theorem iterMarkResolved_stable (now : Int) (topic note : String)
    (ht : optTruthy (some topic) = true) :
    ∀ (k : Nat) (st : Store) (i : Nat) (x : AgentMemory),
      hasResolvedMarker x.summary = true → st[i]? = some x →
      (iterMarkResolved now none (some topic) note k st)[i]? = some x := by
  intro k
  induction k with
  | zero => intro st i x _ hx; exact hx
  | succ n ih =>
    intro st i x hm hx
    show (iterMarkResolved now none (some topic) note n
      (mark_resolved now none (some topic) note st).1)[i]? = some x
    exact ih _ i x hm (by
      rw [mark_resolved_getElem now topic note st ht, hx, Option.map_some',
        markResolvedUpd_marked hm])

theorem iterMarkResolved_state (now : Int) (topic note : String)
    (ht : optTruthy (some topic) = true) :
    ∀ (N : Nat) (st : Store) (i : Nat) (r : AgentMemory),
      hasResolvedMarker r.summary = false →
      (st[i]? = some r ∨ st[i]? = some (markResolvedOne now note r)) →
      ((iterMarkResolved now none (some topic) note N st)[i]? = some r ∨
        (iterMarkResolved now none (some topic) note N st)[i]? =
          some (markResolvedOne now note r)) := by
  intro N
  induction N with
  | zero => intro st i r _ h; exact h
  | succ n ih =>
    intro st i r hm h
    show (iterMarkResolved now none (some topic) note n
      (mark_resolved now none (some topic) note st).1)[i]? = some r ∨ _
    apply ih _ _ _ hm
    rcases h with h | h
    · rw [mark_resolved_getElem now topic note st ht, h, Option.map_some']
      by_cases hp : markResolvedPred now none (some topic) r = true
      · exact Or.inr (by simp [markResolvedUpd, hp])
      · rw [Bool.not_eq_true] at hp
        exact Or.inl (by simp [markResolvedUpd, hp])
    · rw [mark_resolved_getElem now topic note st ht, h, Option.map_some',
        markResolvedUpd_marked (marker_markResolvedOne hm)]
      exact Or.inr rfl

/-- C4: resolution through `mark_resolved` is idempotent — a second
identical call returns count 0, a summary never acquires a second
`[RESOLVED]` prefix no matter how many times the call is repeated, and a
matched active record with no annotations ends with exactly one annotation
after any positive number of repetitions (attempts after the first append
nothing). -/
theorem mark_resolved_idempotent (now : Int) (topic note note2 : String)
    (st : Store) (ht : optTruthy (some topic) = true) :
    (mark_resolved now none (some topic) note2
        (mark_resolved now none (some topic) note st).1).2 = 0 ∧
    (∀ (N i : Nat) (r r2 : AgentMemory), st[i]? = some r →
      hasResolvedMarker r.summary = false →
      (iterMarkResolved now none (some topic) note N st)[i]? = some r2 →
      r2.summary = r.summary ∨ r2.summary = "[RESOLVED] " ++ r.summary) ∧
    (∀ (N i : Nat) (r r2 : AgentMemory), st[i]? = some r →
      markResolvedPred now none (some topic) r = true →
      hasResolvedMarker r.summary = false →
      r.context_annotations = [] → 1 ≤ N →
      (iterMarkResolved now none (some topic) note N st)[i]? = some r2 →
      r2.context_annotations.length = 1) := by
  have hcond : ¬((!optTruthy (none : Option String) &&
      !optTruthy (some topic)) = true) := by simp [ht]
  refine ⟨?_, ?_, ?_⟩
  · conv_lhs => rw [mark_resolved, if_neg hcond]
    show ((mark_resolved now none (some topic) note st).1.filter _).length = 0
    rw [mark_resolved, if_neg hcond]
    show ((st.map _).filter _).length = 0
    rw [List.length_eq_zero, List.filter_eq_nil_iff]
    intro m hm
    rw [List.mem_map] at hm
    obtain ⟨m0, -, rfl⟩ := hm
    simp [markResolvedUpd_dead now topic note m0]
  · intro N i r r2 hr hm h2
    have := iterMarkResolved_state now topic note ht N st i r hm (Or.inl hr)
    rcases this with h | h
    · rw [h2] at h
      exact Or.inl (by rw [Option.some.injEq] at h; rw [h])
    · rw [h2] at h
      rw [Option.some.injEq] at h
      right
      rw [h]
      simp [markResolvedOne, hm]
  · intro N i r r2 hr hp hm hann hN h2
    obtain ⟨k, rfl⟩ : ∃ k, N = k + 1 := ⟨N - 1, by omega⟩
    have hstep : (mark_resolved now none (some topic) note st).1[i]? =
        some (markResolvedOne now note r) := by
      rw [mark_resolved_getElem now topic note st ht, hr, Option.map_some']
      simp [markResolvedUpd, hp]
    have hfin := iterMarkResolved_stable now topic note ht k
      (mark_resolved now none (some topic) note st).1 i
      (markResolvedOne now note r) (marker_markResolvedOne hm) hstep
    have : (iterMarkResolved now none (some topic) note (k + 1) st)[i]? =
        some (markResolvedOne now note r) := hfin
    rw [h2, Option.some.injEq] at this
    rw [this]
    simp [markResolvedOne, hm, hann]

/-- Closed instance of the C4 theorem: on the two-record Pedro store the
second call returns 0, and after three repetitions the triage record holds
exactly one annotation. -/
theorem mark_resolved_idempotent_witness :
    (mark_resolved 3000 none (some "pedro") "again"
        (mark_resolved 3000 none (some "pedro") "handled"
          [pedroTriage, pedroBrief]).1).2 = 0 ∧
    ({ pedroTriage with
        context_annotations :=
          [({ timestamp := 3000, note := "handled", status := "resolved" } :
            AnnotationEntry)]
        summary := "[RESOLVED] Pedro called off dinner shift" } :
      AgentMemory).context_annotations.length = 1 :=
  ⟨(mark_resolved_idempotent 3000 "pedro" "handled" "again"
      [pedroTriage, pedroBrief] (by decide)).1,
   (mark_resolved_idempotent 3000 "pedro" "handled" "again"
      [pedroTriage, pedroBrief] (by decide)).2.2 3 0 pedroTriage _
     (by decide) (by decide) (by decide) (by decide) (by decide) (by decide)⟩

/- ### Digest rendering (C9) -/

theorem foldl_append_flatMap {α β : Type} (f : α → List β) :
    ∀ (l : List α) (init : List β),
      l.foldl (fun acc x => acc ++ f x) init = init ++ l.flatMap f := by
  intro l
  induction l with
  | nil => intro init; simp
  | cons a t ih =>
    intro init
    rw [List.foldl_cons, ih]
    simp

theorem coordLines_fold (ts : Int → String) (memories : List AgentMemory) :
    ∀ (keys : List String) (init : List String),
      keys.foldl
        (fun lines a =>
          ((memories.filter (fun m => m.agent_type == a)).take 10).foldl
            (fun ls mem => ls ++ recordLines ts mem)
            (lines ++ ["\n" ++ upperString a ++ " Agent:"]))
        init =
      init ++ keys.flatMap (fun a =>
        ("\n" ++ upperString a ++ " Agent:") ::
        ((memories.filter (fun m => m.agent_type == a)).take 10).flatMap
          (recordLines ts)) := by
  intro keys
  induction keys with
  | nil => intro init; simp
  | cons k t ih =>
    intro init
    rw [List.foldl_cons, ih, foldl_append_flatMap]
    simp

/-- C9 counterexample: the digest line for a record is not the bare
`[<time>] <summary>` — it carries the two-space-dash bullet prefix
(`  - [<time>] <summary>`), so the bare form never appears among the
rendered lines. -/
theorem digest_line_is_bullet_form :
    "  - [T] Pedro called off dinner shift" ∈
      coordinationContextLines (fun _ => "T") 1000 24 false
        ⟨[pedroTriage], []⟩ ∧
    "[T] Pedro called off dinner shift" ∉
      coordinationContextLines (fun _ => "T") 1000 24 false
        ⟨[pedroTriage], []⟩ := by decide

/-- C9 amended: the text digest consists of a fixed header plus, per agent
type in first-occurrence order, an agent heading followed, for each of the
agent's first ten records, by exactly one main line of the byte-stable form
`  - [<time>] <summary>` — extended by a ` (User note: <latest note>)`
suffix when the record carries annotations — and at most two bullet
sub-lines surfacing findings highlights (urgent items, deadline count)
when present. -/
theorem coordination_digest_format (ts : Int → String) (now : Int)
    (hours : Nat) (include_resolved : Bool) (sess : Session) :
    coordinationContextLines ts now hours include_resolved sess =
      ("AGENT MEMORY (Last " ++ toString hours ++
        "h - Active items only):\n") ::
      (firstOccKeys
        (coordinationMemories now hours include_resolved sess)).flatMap
        (fun a =>
          ("\n" ++ upperString a ++ " Agent:") ::
          (((coordinationMemories now hours include_resolved sess).filter
              (fun m => m.agent_type == a)).take 10).flatMap
            (recordLines ts)) ∧
    (∀ m : AgentMemory,
      (recordLines ts m).head? =
        some ("  - [" ++ ts m.created_at ++ "] " ++ m.summary ++
          annotationNote m) ∧
      (recordLines ts m).length ≤ 3) := by
  constructor
  · rw [coordinationContextLines, coordLines_fold]
    simp
  · intro m
    refine ⟨rfl, ?_⟩
    rw [recordLines]
    split <;> split <;> simp

/-- Supporting fact for the C3 counterexample's reachability:
`smart_resolve` flips only the `is_resolved` column (plus the resolution
metadata) and never touches the summary text, so the state
"Resolved per the column, summary unmarked" arises from normal operation. -/
theorem smart_resolve_keeps_summary (now : Int) (topic : String)
    (ctxFilter : Option String) (st : Store) (i : Nat) :
    ((smart_resolve now topic ctxFilter st).1[i]?.map
      (fun m => m.summary)) = st[i]?.map (fun m => m.summary) := by
  show ((st.map _)[i]?.map _) = _
  rw [List.getElem?_map]
  cases h : st[i]? with
  | none => rfl
  | some r =>
    simp only [Option.map_some']
    congr 1
    split <;> rfl
